import Mathlib

/-!
Verification of the Sasha-AI → Bitrix webhook relay.

Shallow embedding of `src/mapping.js` (field-mapping engine) and
`src/server.js` / `src/unnamed/part_000` (relay handler) into Lean.
JavaScript values are modelled by the inductive `JSVal`; JS exceptions by
`Except String`; the upstream CRM endpoint by a function argument.
-/

namespace SashaRelay

mutual

/-- A JSON-like JavaScript value.  `undefined` is JavaScript `undefined`,
`jnull` is JavaScript `null`.  Numbers are modelled as integers (every
numeric literal in the repository's payloads and tables is integral).
Arrays and objects carry their elements through the mutually inductive
`JSList` / `JSFields` so that all traversals are structurally
recursive. -/
inductive JSVal where
  | jnull
  | undefined
  | boolean (b : Bool)
  | num (n : Int)
  | str (s : String)
  | arrC (elems : JSList)
  | objC (fields : JSFields)

/-- A list of JavaScript values (array elements). -/
inductive JSList where
  | nil
  | cons (head : JSVal) (tail : JSList)

/-- The fields of a JavaScript object, in insertion order. -/
inductive JSFields where
  | fnil
  | fcons (key : String) (val : JSVal) (tail : JSFields)

end

/-- Build a `JSList` from a Lean list. -/
def JSList.ofList : List JSVal → JSList
  | [] => .nil
  | v :: vs => .cons v (JSList.ofList vs)

/-- Build `JSFields` from a Lean association list. -/
def JSFields.ofList : List (String × JSVal) → JSFields
  | [] => .fnil
  | (k, v) :: ps => .fcons k v (JSFields.ofList ps)

/-- Array literal. -/
def JSVal.arr (elems : List JSVal) : JSVal := .arrC (.ofList elems)

/-- Object literal. -/
def JSVal.obj (fields : List (String × JSVal)) : JSVal := .objC (.ofList fields)

def JSList.isEmpty : JSList → Bool
  | .nil => true
  | .cons _ _ => false

def JSList.length : JSList → Nat
  | .nil => 0
  | .cons _ vs => vs.length + 1

/-- First binding of a key (parsed objects keep keys unique). -/
def JSFields.lookup : JSFields → String → Option JSVal
  | .fnil, _ => none
  | .fcons k v tail, key => if key == k then some v else tail.lookup key

def JSFields.keys : JSFields → List String
  | .fnil => []
  | .fcons k _ tail => k :: tail.keys

/-- JavaScript truthiness: `null`, `undefined`, `false`, `0` and `''` are
falsy; every other value (including empty arrays and objects) is truthy. -/
def truthy : JSVal → Bool
  | .jnull => false
  | .undefined => false
  | .boolean b => b
  | .num n => !(n == 0)
  | .str s => !(s == "")
  | .arrC _ => true
  | .objC _ => true

def isNull : JSVal → Bool
  | .jnull => true
  | _ => false

def isUndefined : JSVal → Bool
  | .undefined => true
  | _ => false

/-- Property access `v[key]`: defined field of an object, `undefined`
otherwise.  (The mapping tables use purely dotted-object traversal; index
or `length` access on primitives never occurs on the resolved paths.) -/
def getProp : JSVal → String → JSVal
  | .objC fields, key =>
    match fields.lookup key with
    | some v => v
    | none => .undefined
  | _, _ => .undefined

/-- JavaScript `a || b`. -/
def jsOr (a b : JSVal) : JSVal := if truthy a then a else b

/-- Optional chaining `a?.key`. -/
def optChain (a : JSVal) (key : String) : JSVal :=
  if isNull a || isUndefined a then .undefined else getProp a key

/-- `typeof v` (as a string). -/
def typeofStr : JSVal → String
  | .jnull => "object"
  | .undefined => "undefined"
  | .boolean _ => "boolean"
  | .num _ => "number"
  | .str _ => "string"
  | .arrC _ => "object"
  | .objC _ => "object"

/-- `Object.keys(v)`. -/
def objKeys : JSVal → List String
  | .objC fields => fields.keys
  | .arrC elems => (List.range elems.length).map (fun i => toString i)
  | _ => []

/-- Join a list of strings with a separator (`Array.prototype.join`). -/
def joinSep (sep : String) : List String → String
  | [] => ""
  | [x] => x
  | x :: xs => x ++ sep ++ joinSep sep xs

mutual

/-- JavaScript string coercion `String(v)` / template-literal
interpolation. -/
def jsToString : JSVal → String
  | .jnull => "null"
  | .undefined => "undefined"
  | .boolean b => if b then "true" else "false"
  | .num n => toString n
  | .str s => s
  | .arrC elems => joinSep "," (jsToStringList elems)
  | .objC _ => "[object Object]"

/-- Coerce every element of an array. -/
def jsToStringList : JSList → List String
  | .nil => []
  | .cons v vs => jsToString v :: jsToStringList vs

end

/-- Escape a string for `JSON.stringify`. -/
def jsonEscape (s : String) : String :=
  String.mk (s.toList.flatMap (fun c =>
    if c == '"' then ['\\', '"']
    else if c == '\\' then ['\\', '\\']
    else if c == '\n' then ['\\', 'n']
    else if c == '\t' then ['\\', 't']
    else if c == '\r' then ['\\', 'r']
    else [c]))

mutual

/-- `JSON.stringify(v)` (on values coming from parsed JSON, so `undefined`
members do not occur). -/
def jsonStringify : JSVal → String
  | .jnull => "null"
  | .undefined => "null"
  | .boolean b => if b then "true" else "false"
  | .num n => toString n
  | .str s => "\"" ++ jsonEscape s ++ "\""
  | .arrC elems => "[" ++ joinSep "," (jsonStringifyList elems) ++ "]"
  | .objC fields => "\x7b" ++ joinSep "," (jsonStringifyFields fields) ++ "\x7d"

def jsonStringifyList : JSList → List String
  | .nil => []
  | .cons v vs => jsonStringify v :: jsonStringifyList vs

def jsonStringifyFields : JSFields → List String
  | .fnil => []
  | .fcons k v tail =>
    ("\"" ++ jsonEscape k ++ "\":" ++ jsonStringify v) :: jsonStringifyFields tail

end

/-! ## Path resolver (`getValueByPath`, mapping.js lines 173-181) -/

/-- `path.split('.')` on the character level (JavaScript semantics:
`''.split('.') = ['']`, `'a.'.split('.') = ['a','']`). -/
def splitDots (s : String) : List String :=
  go s.toList []
where
  go : List Char → List Char → List String
    | [], acc => [String.mk acc.reverse]
    | c :: cs, acc =>
      if c == '.' then String.mk acc.reverse :: go cs []
      else go cs (c :: acc)

/-- One step of the `reduce` inside `getValueByPath`:
`current && current[key] !== undefined ? current[key] : null`. -/
def pathStep (current : JSVal) (key : String) : JSVal :=
  if truthy current && !(isUndefined (getProp current key)) then getProp current key
  else .jnull

def pathFold (v : JSVal) (keys : List String) : JSVal :=
  keys.foldl pathStep v

/-- `getValueByPath(obj, path)` from mapping.js: `null` for the empty path
and the reserved sentinels, otherwise a null-short-circuiting fold over the
dot-separated segments. -/
def getValueByPath (o : JSVal) (path : String) : JSVal :=
  if path == "" || path == "static" || path == "multiple" then .jnull
  else pathFold o (splitDots path)

/-! ## Mapping engine (`applyMapping`, mapping.js lines 189-243) -/

/-- One field specification of a mapping table: `source` is a dotted path
or one of the sentinels `static` / `multiple`; `value` is the literal used
by `static` (reading a missing property yields `undefined`); `transform`
is the optional transform function, which may throw (`Except.error`). -/
structure FieldSpec where
  source : String
  value : JSVal := .undefined
  transform : Option (JSVal → JSVal → Except String JSVal) := none

/-- Resolve one field specification against the document: the body of the
`try` block of the mapping loop (static value / `multiple` transform /
path lookup plus optional transform).  A thrown JS exception is
`Except.error`. -/
def resolveField (webhookData : JSVal) (config : FieldSpec) : Except String JSVal :=
  if config.source == "static" then
    .ok config.value
  else if config.source == "multiple" then
    match config.transform with
    | some t => t .jnull webhookData
    | none => .ok .jnull
  else
    let rawValue := getValueByPath webhookData config.source
    match config.transform with
    | some t => t rawValue webhookData
    | none => .ok rawValue

/-- An output record: a JavaScript object as a key/value list with unique
keys in insertion order. -/
abbrev Record := List (String × JSVal)

/-- JavaScript assignment `result[field] = v`: overwrite in place if the
key exists, append otherwise. -/
def recSet (r : Record) (field : String) (v : JSVal) : Record :=
  if r.any (fun p => p.1 == field) then
    r.map (fun p => if p.1 == field then (p.1, v) else p)
  else
    r ++ [(field, v)]

/-- Strict equality to the empty string (`value === ''`). -/
def isEmptyStr : JSVal → Bool
  | .str s => s == ""
  | _ => false

/-- The inclusion test of the mapping loop, first stage:
`value !== null && value !== undefined && value !== ''`. -/
def passesNonEmpty (v : JSVal) : Bool :=
  !(isNull v) && !(isUndefined v) && !(isEmptyStr v)

/-- `Array.isArray(value) && value.length === 0`. -/
def isEmptyArr : JSVal → Bool
  | .arrC xs => xs.isEmpty
  | _ => false

/-- Effect of one loop iteration of `applyMapping` on the result object:
on error or on a filtered-out value the result is unchanged, otherwise the
resolved value is stored under the target field. -/
def entryResult (webhookData : JSVal) (r : Record) (e : String × FieldSpec) : Record :=
  match resolveField webhookData e.2 with
  | .error _ => r
  | .ok value =>
    if passesNonEmpty value then
      if isEmptyArr value then r else recSet r e.1 value
    else r

/-- Diagnostics (the `skippedFields` entries) produced by one loop
iteration, with the exact strings built by mapping.js. -/
def entryDiag (webhookData : JSVal) (e : String × FieldSpec) : List String :=
  match resolveField webhookData e.2 with
  | .error msg => [e.1 ++ " (ошибка: " ++ msg ++ ")"]
  | .ok value =>
    if passesNonEmpty value then
      if isEmptyArr value then [e.1 ++ " (пустой массив)"] else []
    else
      [e.1 ++ " (" ++
        (if isNull value then "null"
         else if isUndefined value then "undefined"
         else "пустая строка") ++ ")"]

/-- One iteration of the `for` loop over `Object.entries(mapping)`: the
pure resolution is shared by `entryResult` (result object) and
`entryDiag` (skipped-field diagnostics). -/
def processEntry (webhookData : JSVal) (st : Record × List String)
    (e : String × FieldSpec) : Record × List String :=
  (entryResult webhookData st.1 e, st.2 ++ entryDiag webhookData e)

/-- `applyMapping` together with its `skippedFields` diagnostics. -/
def applyMappingFull (webhookData : JSVal) (mapping : List (String × FieldSpec)) :
    Record × List String :=
  mapping.foldl (processEntry webhookData) ([], [])

/-- `applyMapping(webhookData, mapping)` from mapping.js: the returned
result object. -/
def applyMapping (webhookData : JSVal) (mapping : List (String × FieldSpec)) : Record :=
  (applyMappingFull webhookData mapping).1

/-! ## String helpers used by the lead-mapping transforms -/

/-- A character stripped by `String.prototype.trim` (whitespace and line
terminators). -/
def isJsWhitespace (c : Char) : Bool :=
  c == ' ' || c == '\t' || c == '\n' || c == '\r' ||
  c == '\x0b' || c == '\x0c'

/-- `s.trim()`. -/
def jsTrim (s : String) : String :=
  String.mk (((s.toList.dropWhile isJsWhitespace).reverse.dropWhile isJsWhitespace).reverse)

/-- `s.replace(/\D/g, '')`: keep only the decimal digits `0`-`9`. -/
def stripNonDigits (s : String) : String :=
  String.mk (s.toList.filter (fun c => c.isDigit))

/-- `String(n).padStart(2, '0')`. -/
def pad2 (s : String) : String :=
  if s.length < 2 then String.mk (List.replicate (2 - s.length) '0') ++ s else s

/-! ## Date helpers of the COMMENTS transform

Calendar arithmetic matches the ECMAScript `Date`: epoch milliseconds,
proleptic Gregorian calendar, `getUTC*` accessors.  ISO strings without a
timezone designator are interpreted in the server's timezone, which is UTC
in the reference deployment (the Docker image sets no TZ). -/

/-- Days since 1970-01-01 of the civil date `(y, m, d)` (standard
days-from-civil algorithm, floor division). -/
def daysFromCivil (y m d : Int) : Int :=
  let y' := if m ≤ 2 then y - 1 else y
  let era := Int.fdiv (if y' ≥ 0 then y' else y' - 399) 400
  let yoe := y' - era * 400
  let mp := if m > 2 then m - 3 else m + 9
  let doy := Int.fdiv (153 * mp + 2) 5 + d - 1
  let doe := yoe * 365 + Int.fdiv yoe 4 - Int.fdiv yoe 100 + doy
  era * 146097 + doe - 719468

/-- Civil date `(y, m, d)` of a count of days since 1970-01-01 (inverse of
`daysFromCivil`). -/
def civilFromDays (z0 : Int) : Int × Int × Int :=
  let z := z0 + 719468
  let era := Int.fdiv (if z ≥ 0 then z else z - 146096) 146097
  let doe := z - era * 146097
  let yoe := Int.fdiv (doe - Int.fdiv doe 1460 + Int.fdiv doe 36524 - Int.fdiv doe 146096) 365
  let y := yoe + era * 400
  let doy := doe - (365 * yoe + Int.fdiv yoe 4 - Int.fdiv yoe 100)
  let mp := Int.fdiv (5 * doy + 2) 153
  let d := doy - Int.fdiv (153 * mp + 2) 5 + 1
  let m := if mp < 10 then mp + 3 else mp - 9
  (if m ≤ 2 then y + 1 else y, m, d)

/-- Read a fixed-width decimal number from a character list. -/
def readDigits (cs : List Char) (width : Nat) : Option (Int × List Char) :=
  let taken := cs.take width
  if taken.length == width && taken.all (fun c => c.isDigit) then
    some ((taken.foldl (fun acc c => acc * 10 + (Int.ofNat (c.toNat - '0'.toNat))) 0),
      cs.drop width)
  else
    none

/-- Expect a literal character. -/
def expectChar (c : Char) : List Char → Option (List Char)
  | x :: xs => if x == c then some xs else none
  | [] => none

/-- Parse the optional `:SS(.fff)?` seconds part of an ISO time. -/
def parseIsoSeconds (cs : List Char) : Option (Int × List Char) :=
  match cs with
  | ':' :: rest =>
    match readDigits rest 2 with
    | some (s, rest2) =>
      if s ≤ 59 then
        match rest2 with
        | '.' :: rest3 =>
          match readDigits rest3 3 with
          | some (f, rest4) => some (s * 1000 + f, rest4)
          | none => none
        | _ => some (s * 1000, rest2)
      else none
    | none => none
  | _ => some (0, cs)

/-- Parse the optional timezone designator (`Z` or `±HH:MM`), returning
the offset in milliseconds east of UTC, or `none` for an absent
designator (interpreted as UTC, the server timezone). -/
def parseIsoOffset (cs : List Char) : Option (Int × List Char) :=
  match cs with
  | 'Z' :: rest => some (0, rest)
  | '+' :: rest =>
    match readDigits rest 2 with
    | some (h, rest2) =>
      match expectChar ':' rest2 with
      | some rest3 =>
        match readDigits rest3 2 with
        | some (mi, rest4) => some (h * 3600000 + mi * 60000, rest4)
        | none => none
      | none => none
    | none => none
  | '-' :: rest =>
    match readDigits rest 2 with
    | some (h, rest2) =>
      match expectChar ':' rest2 with
      | some rest3 =>
        match readDigits rest3 2 with
        | some (mi, rest4) => some (-(h * 3600000 + mi * 60000), rest4)
        | none => none
      | none => none
    | none => none
  | _ => some (0, cs)

/-- Parse an ISO-8601 date or date-time string (`YYYY-MM-DD`, optionally
`THH:MM(:SS(.fff))?` and a timezone designator) to epoch milliseconds, as
`new Date(s)` does on this format; `none` is an Invalid Date. -/
def parseIsoMs (s : String) : Option Int :=
  match readDigits s.toList 4 with
  | none => none
  | some (y, r1) =>
    match expectChar '-' r1 with
    | none => none
    | some r2 =>
      match readDigits r2 2 with
      | none => none
      | some (m, r3) =>
        if m < 1 || 12 < m then none else
        match expectChar '-' r3 with
        | none => none
        | some r4 =>
          match readDigits r4 2 with
          | none => none
          | some (d, r5) =>
            if d < 1 || 31 < d then none else
            let dayMs := daysFromCivil y m d * 86400000
            match r5 with
            | [] => some dayMs
            | 'T' :: r6 =>
              match readDigits r6 2 with
              | none => none
              | some (h, r7) =>
                if 23 < h then none else
                match expectChar ':' r7 with
                | none => none
                | some r8 =>
                  match readDigits r8 2 with
                  | none => none
                  | some (mi, r9) =>
                    if 59 < mi then none else
                    match parseIsoSeconds r9 with
                    | none => none
                    | some (secMs, r10) =>
                      match parseIsoOffset r10 with
                      | none => none
                      | some (off, r11) =>
                        if r11.isEmpty then
                          some (dayMs + h * 3600000 + mi * 60000 + secMs - off)
                        else none
            | _ => none

/-- `new Date(v).getTime()` for the values flowing into the COMMENTS
transform: epoch number, ISO string, everything else an Invalid Date. -/
def jsDateMs : JSVal → Option Int
  | .num n => some n
  | .str s => parseIsoMs s
  | _ => none

/-- Render epoch milliseconds (already shifted to MSK) as
`DD.MM.YYYY HH:MM по МСК` via the `getUTC*` accessors. -/
def renderMsk (t : Int) : String :=
  let days := Int.fdiv t 86400000
  let msOfDay := Int.emod t 86400000
  let c := civilFromDays days
  pad2 (toString c.2.2) ++ "." ++ pad2 (toString c.2.1) ++ "." ++ toString c.1 ++ " " ++
    pad2 (toString (Int.fdiv msOfDay 3600000)) ++ ":" ++
    pad2 (toString (Int.emod (Int.fdiv msOfDay 60000) 60)) ++ " по МСК"

/-! ## COMMENTS transform helpers (mapping.js lines 29-114) -/

/-- `formatDuration(ms)`: milliseconds to `MM:SS`; `==` is the loose
equality, so both `null` and `undefined` give the placeholder.  A
non-numeric argument propagates NaN through the arithmetic. -/
def formatDuration (ms : JSVal) : String :=
  match ms with
  | .jnull => "—"
  | .undefined => "—"
  | .num n =>
    let totalSec := Int.fdiv n 1000
    let min := Int.fdiv totalSec 60
    let sec := Int.tmod totalSec 60
    pad2 (toString min) ++ ":" ++ pad2 (toString sec)
  | _ => "NaN:NaN"

/-- `formatDateMsk(dateStr)`: `—` on a falsy or unparseable value,
otherwise the UTC+3 rendering. -/
def formatDateMsk (dateStr : JSVal) : String :=
  if truthy dateStr then
    match jsDateMs dateStr with
    | none => "—"
    | some t => renderMsk (t + 3 * 60 * 60 * 1000)
  else "—"

/-- `timeStr.replace(' ', 'T')` (first occurrence only). -/
def replaceFirstSpaceT (s : String) : String :=
  String.mk (go s.toList)
where
  go : List Char → List Char
    | [] => []
    | c :: cs => if c == ' ' then 'T' :: cs else c :: go cs

/-- `formatAgreementsTime(timeStr)`: normalise `YYYY-MM-DD HH:MM:SS` to an
ISO UTC string, render at UTC+3; return the input for an unparseable
string and the placeholder for a falsy value.  (`includes` on a truthy
non-string throws inside the local `try`, whose `catch` returns the input;
the template literal then coerces it.) -/
def formatAgreementsTime (timeStr : JSVal) : String :=
  if truthy timeStr then
    match timeStr with
    | .str s =>
      let normalized := if s.toList.contains 'Z' then s else replaceFirstSpaceT s ++ "Z"
      match parseIsoMs normalized with
      | none => s
      | some t => renderMsk (t + 3 * 60 * 60 * 1000)
    | other => jsToString other
  else "—"

/-! ## The lead mapping table (mapping.js lines 21-140, first variant) -/

/-- The `STATUS_ID` specification: static value `UC_E5DGC8`. -/
def statusSpec : FieldSpec :=
  { source := "static", value := .str "UC_E5DGC8" }

/-- The COMMENTS transform (`source: 'multiple'`): assembles the
multi-line human-readable summary from the whole document, rendering every
absent sub-field as the placeholder `—`. -/
def commentsTransform (_value data : JSVal) : Except String JSVal := do
  let call := jsOr (getProp data "call") (.obj [])
  let contact := jsOr (getProp data "contact") (.obj [])
  let agreements := jsOr (getProp call "agreements") (.obj [])
  let clientName := jsOr (getProp agreements "client_name") (.str "—")
  let phone : String ←
    (if truthy (getProp contact "phone") then
      match getProp contact "phone" with
      | .str s => .ok ("+" ++ stripNonDigits s)
      | _ => .error "contact.phone.replace is not a function"
    else .ok "—")
  let duration := formatDuration (getProp call "duration")
  let startedAt := formatDateMsk (getProp call "startedAt")
  let recordUrl := jsOr (getProp call "recordUrl") (.str "—")
  let agreementsText := jsOr (getProp agreements "agreements") (.str "—")
  let agreementsTime := formatAgreementsTime
    (jsOr (getProp agreements "agreements_time_local") (getProp agreements "agreements_time"))
  let region := jsOr (optChain (getProp contact "dadataPhoneInfo") "region") (.str "—")
  let tagsV := getProp contact "tags"
  let tagsLenPos :=
    match tagsV with
    | .arrC xs => decide (0 < xs.length)
    | .str s => decide (0 < s.length)
    | _ => false
  let tags : String ←
    (if truthy tagsV && tagsLenPos then
      match tagsV with
      | .arrC xs => .ok (joinSep ", " (jsToStringList xs))
      | _ => .error "contact.tags.join is not a function"
    else .ok "—")
  let clientFacts := jsOr (getProp agreements "client_facts") (.str "—")
  let af := getProp contact "additionalFields"
  let hasAdditionalFields :=
    truthy af && typeofStr af == "object" && decide (0 < (objKeys af).length)
  let additionalFields := if hasAdditionalFields then jsonStringify af else "—"
  let smsText := jsOr (getProp agreements "smsText") (.str "—")
  .ok (.str
    ("Имя: " ++ jsToString clientName ++ "\n" ++
     "Телефон: " ++ phone ++ "\n" ++
     "Длительность звонка: " ++ duration ++ "\n" ++
     "Время начала звонка: " ++ startedAt ++ "\n" ++
     "Заинтересованность: —\n" ++
     "Запись звонка: " ++ jsToString recordUrl ++ "\n" ++
     "\n" ++
     "Договоренности: " ++ jsToString agreementsText ++ "\n" ++
     "Время договоренности: " ++ agreementsTime ++ "\n" ++
     "Возможный регион: " ++ jsToString region ++ "\n" ++
     "Теги: " ++ tags ++ "\n" ++
     "\n" ++
     "О клиенте:\n" ++
     jsToString clientFacts ++ "\n" ++
     "\n" ++
     "Доп. поля контакта: " ++ additionalFields ++ "\n" ++
     "\n" ++
     "Закрывающее сообщение:\n" ++
     jsToString smsText))

/-- The COMMENTS specification. -/
def commentsSpec : FieldSpec :=
  { source := "multiple", transform := some commentsTransform }

/-- The NAME transform: trim, with `null` replacing the empty string so
Bitrix can apply its default.  Calling `trim` on a truthy non-string
throws. -/
def nameTransform (value _data : JSVal) : Except String JSVal :=
  if truthy value then
    match value with
    | .str s =>
      let trimmed := jsTrim s
      .ok (if trimmed == "" then .jnull else .str trimmed)
    | _ => .error "value.trim is not a function"
  else .ok .jnull

/-- The NAME specification (source `call.agreements.client_name`). -/
def nameSpec : FieldSpec :=
  { source := "call.agreements.client_name", transform := some nameTransform }

/-- The PHONE transform: strip non-digits, `null` when nothing remains,
otherwise a one-element list of a phone-entry object. -/
def phoneTransform (value _data : JSVal) : Except String JSVal :=
  if truthy value then
    match value with
    | .str s =>
      let phoneFormatted := stripNonDigits s
      .ok (if phoneFormatted == "" then .jnull
        else .arr [.obj [("VALUE", .str phoneFormatted), ("VALUE_TYPE", .str "WORK")]])
    | _ => .error "value.replace is not a function"
  else .ok .jnull

/-- The PHONE specification (source `contact.phone`). -/
def phoneSpec : FieldSpec :=
  { source := "contact.phone", transform := some phoneTransform }

/-- `leadMapping` (first variant in mapping.js): STATUS_ID, COMMENTS,
NAME, PHONE in table order. -/
def leadMapping : List (String × FieldSpec) :=
  [("STATUS_ID", statusSpec),
   ("COMMENTS", commentsSpec),
   ("NAME", nameSpec),
   ("PHONE", phoneSpec)]

/-! ## JSON.parse

A fuel-indexed recursive-descent parser for the JSON fragment the relay
receives (objects, arrays, strings with the common escapes, integral
numbers, literals).  `none` models the `SyntaxError` thrown by
`JSON.parse`. -/

def isJsonWs (c : Char) : Bool :=
  c == ' ' || c == '\t' || c == '\n' || c == '\r'

def skipWs (cs : List Char) : List Char :=
  cs.dropWhile isJsonWs

/-- Parse the remainder of a JSON string literal (after the opening
quote). -/
def parseJsonString : List Char → Option (String × List Char) :=
  go []
where
  go (acc : List Char) : List Char → Option (String × List Char)
    | [] => none
    | '"' :: rest => some (String.mk acc.reverse, rest)
    | '\\' :: e :: rest =>
      if e == '"' then go ('"' :: acc) rest
      else if e == '\\' then go ('\\' :: acc) rest
      else if e == '/' then go ('/' :: acc) rest
      else if e == 'n' then go ('\n' :: acc) rest
      else if e == 't' then go ('\t' :: acc) rest
      else if e == 'r' then go ('\r' :: acc) rest
      else if e == 'b' then go ('\x08' :: acc) rest
      else if e == 'f' then go ('\x0c' :: acc) rest
      else none
    | '\\' :: [] => none
    | c :: rest => go (c :: acc) rest

/-- Parse an integral JSON number. -/
def parseJsonNumber (cs : List Char) : Option (Int × List Char) :=
  match cs with
  | '-' :: rest =>
    match parseNat rest 0 false with
    | some (n, r) => some (-(Int.ofNat n), r)
    | none => none
  | _ =>
    match parseNat cs 0 false with
    | some (n, r) => some (Int.ofNat n, r)
    | none => none
where
  parseNat : List Char → Nat → Bool → Option (Nat × List Char)
    | [], acc, seen => if seen then some (acc, []) else none
    | c :: rest, acc, seen =>
      if c.isDigit then parseNat rest (acc * 10 + (c.toNat - '0'.toNat)) true
      else if seen then some (acc, c :: rest)
      else none

mutual

/-- Parse one JSON value. -/
def parseJsonVal (fuel : Nat) (cs : List Char) : Option (JSVal × List Char) :=
  match fuel with
  | 0 => none
  | fuel + 1 =>
    match skipWs cs with
    | 'n' :: 'u' :: 'l' :: 'l' :: rest => some (.jnull, rest)
    | 't' :: 'r' :: 'u' :: 'e' :: rest => some (.boolean true, rest)
    | 'f' :: 'a' :: 'l' :: 's' :: 'e' :: rest => some (.boolean false, rest)
    | '"' :: rest =>
      match parseJsonString rest with
      | some (s, r) => some (.str s, r)
      | none => none
    | '[' :: rest =>
      (match skipWs rest with
       | ']' :: r => some (.arr [], r)
       | other =>
         match parseJsonElems fuel other with
         | some (xs, r) => some (.arr xs, r)
         | none => none)
    | '\x7b' :: rest =>
      (match skipWs rest with
       | '\x7d' :: r => some (.obj [], r)
       | other =>
         match parseJsonMembers fuel other [] with
         | some (fs, r) => some (.obj fs, r)
         | none => none)
    | other =>
      match parseJsonNumber other with
      | some (n, r) => some (.num n, r)
      | none => none

/-- Parse a non-empty comma-separated list of array elements followed by
`]`. -/
def parseJsonElems (fuel : Nat) (cs : List Char) : Option (List JSVal × List Char) :=
  match fuel with
  | 0 => none
  | fuel + 1 =>
    match parseJsonVal fuel cs with
    | none => none
    | some (v, r) =>
      match skipWs r with
      | ',' :: r2 =>
        (match parseJsonElems fuel r2 with
         | some (xs, r3) => some (v :: xs, r3)
         | none => none)
      | ']' :: r2 => some ([v], r2)
      | _ => none

/-- Parse a non-empty comma-separated list of object members followed by
the closing brace; a duplicate key overwrites (JS object semantics). -/
def parseJsonMembers (fuel : Nat) (cs : List Char) (acc : Record) :
    Option (Record × List Char) :=
  match fuel with
  | 0 => none
  | fuel + 1 =>
    match skipWs cs with
    | '"' :: rest =>
      (match parseJsonString rest with
       | none => none
       | some (k, r) =>
         match skipWs r with
         | ':' :: r2 =>
           (match parseJsonVal fuel r2 with
            | none => none
            | some (v, r3) =>
              let acc2 := recSet acc k v
              match skipWs r3 with
              | ',' :: r4 => parseJsonMembers fuel r4 acc2
              | '\x7d' :: r4 => some (acc2, r4)
              | _ => none)
         | _ => none)
    | _ => none

end

/-- `JSON.parse(s)`: `some` of the parsed value, `none` when a
`SyntaxError` is thrown. -/
def jsonParse (s : String) : Option JSVal :=
  match parseJsonVal (s.toList.length + 1) s.toList with
  | some (v, rest) => if (skipWs rest).isEmpty then some v else none
  | none => none

/-! ## Relay handler (src/server.js, with the part_000 debug draft of
`createLeadInBitrix` alongside) -/

/-- The environment variables the handlers read. -/
structure Env where
  webhookSecret : Option String := none
  bitrixWebhookUrl : Option String := none

/-- An environment string is falsy when absent or empty. -/
def envFalsy : Option String → Bool
  | none => true
  | some s => s == ""

/-- Outcome of the single upstream HTTPS POST: an HTTP response or a
network failure.  The upstream CRM is a parameter of the embedding. -/
inductive UpstreamOutcome where
  | reply (status : Nat) (body : JSVal)
  | netErr (message : String)

/-- The observable side effects of one request, in order: running the
mapping engine and POSTing to the upstream CRM. -/
inductive Effect where
  | mapped
  | posted
deriving DecidableEq

/-- The value `createLeadInBitrix` resolves with. -/
structure LeadOk where
  leadId : JSVal
  data : JSVal

/-- `error.response?.data?.error_description || error.message` for an
axios rejection whose optional `response.data` is `body?`. -/
def axiosErrText (body? : Option JSVal) (message : String) : String :=
  match body? with
  | some b =>
    let d := getProp b "error_description"
    if truthy d then jsToString d else message
  | none => message

/-- `crm.lead.add` URL construction: append `/` only when the base URL
lacks a trailing one. -/
def buildLeadUrl (burl : String) : String :=
  if burl.endsWith "/" then burl ++ "crm.lead.add" else burl ++ "/crm.lead.add"

/-- `createLeadInBitrix` from src/server.js: map, POST with axios'
default `validateStatus` (2xx resolves), and wrap any rejection.  A 2xx
response body is returned as-is: its `error` field is not inspected. -/
def createLeadInBitrix (env : Env) (upstream : String → JSVal → UpstreamOutcome)
    (data : JSVal) : Except String LeadOk × List Effect :=
  if envFalsy env.bitrixWebhookUrl then
    (.error "BITRIX_WEBHOOK_URL не установлен в переменных окружения", [])
  else
    let burl := env.bitrixWebhookUrl.getD ""
    let leadFields := applyMapping data leadMapping
    let url := buildLeadUrl burl
    match upstream url (.obj [("fields", .obj leadFields)]) with
    | .reply status body =>
      if 200 ≤ status && status < 300 then
        (.ok { leadId := getProp body "result", data := body }, [.mapped, .posted])
      else
        (.error ("Ошибка при создании лида в Bitrix: " ++
          axiosErrText (some body) ("Request failed with status code " ++ toString status)),
         [.mapped, .posted])
    | .netErr message =>
      (.error ("Ошибка при создании лида в Bitrix: " ++ axiosErrText none message),
       [.mapped, .posted])

/-- The part of the part_000 draft `createLeadInBitrix` that runs after
the mapping step, on the mapped record: empty-record guard, POST with
`validateStatus` accepting every status below 600, the response-body
`error`-field check, the missing-`result` check, and the catch-all
rewrap. -/
def createLeadDbgCore (burl : String) (upstream : String → JSVal → UpstreamOutcome)
    (leadFields : Record) : Except String LeadOk × List Effect :=
  if leadFields.isEmpty then
    (.error "После маппинга не осталось полей для создания лида. Проверьте структуру входящих данных.",
     [])
  else
    let url := buildLeadUrl burl
    match upstream url (.obj [("fields", .obj leadFields)]) with
    | .reply status body =>
      if status < 600 then
        if truthy (getProp body "error") then
          (.error ("Ошибка при создании лида в Bitrix: " ++
            ("Bitrix вернул ошибку: " ++ jsToString (getProp body "error") ++ " - " ++
              (if truthy (getProp body "error_description")
               then jsToString (getProp body "error_description") else ""))),
           [.posted])
        else if !truthy (getProp body "result") then
          (.error ("Ошибка при создании лида в Bitrix: " ++
            "Bitrix не вернул ID созданного лида. Возможно, лид не был создан."),
           [.posted])
        else
          (.ok { leadId := getProp body "result", data := body }, [.posted])
      else
        (.error ("Ошибка при создании лида в Bitrix: " ++
          axiosErrText (some body) ("Request failed with status code " ++ toString status)),
         [.posted])
    | .netErr message =>
      (.error ("Ошибка при создании лида в Bitrix: " ++ axiosErrText none message),
       [.posted])

/-- `createLeadInBitrix` from src/unnamed/part_000 (the debug draft):
URL check, mapping, then `createLeadDbgCore`. -/
def createLeadInBitrixDbg (env : Env) (upstream : String → JSVal → UpstreamOutcome)
    (data : JSVal) : Except String LeadOk × List Effect :=
  if envFalsy env.bitrixWebhookUrl then
    (.error "BITRIX_WEBHOOK_URL не установлен в переменных окружения", [])
  else
    let burl := env.bitrixWebhookUrl.getD ""
    let leadFields := applyMapping data leadMapping
    let core := createLeadDbgCore burl upstream leadFields
    (core.1, .mapped :: core.2)

/-- An HTTP response sent to the inbound caller: `res.status(...).send`
becomes a string body, `res.json` an object body (default status 200). -/
structure Resp where
  status : Nat
  body : JSVal

/-- `error.message || 'Внутренняя ошибка сервера'`. -/
def errBody (message : String) : JSVal :=
  .obj [("success", .boolean false),
        ("error", .str (if message == "" then "Внутренняя ошибка сервера" else message))]

/-- The inbound `POST /webhook` request: the optional
`X-Webhook-Signature` header and the raw text body. -/
structure WebhookReq where
  signature : Option String := none
  body : String := ""

/-- The `POST /webhook` handler of src/server.js.  Note that
`verifyWebhookSignature` is never invoked: only the presence of the
signature header is checked.  A JSON parse failure is caught by the
route's `try`/`catch` and answered with 500. -/
def webhookHandler (env : Env) (upstream : String → JSVal → UpstreamOutcome)
    (req : WebhookReq) : Resp × List Effect :=
  if envFalsy req.signature then
    ({ status := 401, body := .str "Отсутствует заголовок X-Webhook-Signature" }, [])
  else if envFalsy env.webhookSecret then
    ({ status := 500, body := .str "WEBHOOK_SECRET не настроен" }, [])
  else if req.body == "" then
    ({ status := 400, body := .str "Тело запроса пустое" }, [])
  else
    match jsonParse req.body with
    | none =>
      ({ status := 500, body := errBody "Unexpected token in JSON" }, [])
    | some data =>
      if !truthy data || (objKeys data).length == 0 then
        ({ status := 400,
           body := .obj [("success", .boolean false),
             ("error", .str "Данные не предоставлены. Отправьте JSON в теле запроса")] }, [])
      else if !truthy (getProp data "contact") || !truthy (getProp data "call") then
        ({ status := 400,
           body := .obj [("success", .boolean false),
             ("error", .str "Отсутствуют обязательные поля: contact или call")] }, [])
      else
        match createLeadInBitrix env upstream data with
        | (.ok result, eff) =>
          ({ status := 200,
             body := .obj [("success", .boolean true),
               ("message", .str "Лид успешно создан в Bitrix"),
               ("leadId", result.leadId), ("data", result.data)] }, eff)
        | (.error message, eff) =>
          ({ status := 500, body := errBody message }, eff)

/-- The `POST /test/bitrix/lead` handler of src/server.js (body already
parsed by `express.json()`; no signature check). -/
def testLeadHandler (env : Env) (upstream : String → JSVal → UpstreamOutcome)
    (data : JSVal) : Resp × List Effect :=
  if !truthy data || !(typeofStr data == "object") then
    ({ status := 400,
       body := .obj [("success", .boolean false),
         ("error", .str "Данные не предоставлены. Отправьте JSON в теле запроса")] }, [])
  else if !truthy (getProp data "contact") || !truthy (getProp data "call") then
    ({ status := 400,
       body := .obj [("success", .boolean false),
         ("error", .str "Отсутствуют обязательные поля: contact или call")] }, [])
  else
    match createLeadInBitrix env upstream data with
    | (.ok result, eff) =>
      ({ status := 200,
         body := .obj [("success", .boolean true),
           ("message", .str "Тестовый лид успешно создан в Bitrix"),
           ("leadId", result.leadId), ("data", result.data)] }, eff)
    | (.error message, eff) =>
      ({ status := 500, body := errBody message }, eff)

/-! ## Generic helpers for the statements -/

/-- Does `hay` start with `needle`? -/
def startsWithSeq : List Char → List Char → Bool
  | _, [] => true
  | [], _ :: _ => false
  | x :: xs, y :: ys => x == y && startsWithSeq xs ys

/-- Does `hay` contain `needle` as a contiguous subsequence? -/
def hasSubSeq : List Char → List Char → Bool
  | [], needle => needle.isEmpty
  | x :: xs, needle => startsWithSeq (x :: xs) needle || hasSubSeq xs needle

/-- Substring containment on strings. -/
def containsSubstr (hay needle : String) : Bool :=
  hasSubSeq hay.toList needle.toList

/-- Concatenate a list of diagnostic lists. -/
def concatAll : List (List String) → List String
  | [] => []
  | l :: ls => l ++ concatAll ls

/-! ## Engine lemmas -/

theorem concatAll_append (a b : List (List String)) :
    concatAll (a ++ b) = concatAll a ++ concatAll b := by
  induction a with
  | nil => simp [concatAll]
  | cons l ls ih => simp [concatAll, ih]

/-- The result component of the mapping fold ignores the diagnostics
accumulator. -/
theorem foldl_processEntry_fst (doc : JSVal) (m : List (String × FieldSpec)) :
    ∀ (r : Record) (s : List String),
      (m.foldl (processEntry doc) (r, s)).1 = m.foldl (entryResult doc) r := by
  induction m with
  | nil => intro r s; rfl
  | cons e es ih =>
    intro r s
    simp only [List.foldl_cons, processEntry]
    exact ih _ _

/-- `applyMapping` as a fold of `entryResult`. -/
theorem applyMapping_eq_foldl (doc : JSVal) (m : List (String × FieldSpec)) :
    applyMapping doc m = m.foldl (entryResult doc) [] := by
  unfold applyMapping applyMappingFull
  exact foldl_processEntry_fst doc m [] []

/-- The diagnostics component of the mapping fold is the concatenation of
the per-entry diagnostics. -/
theorem foldl_processEntry_snd (doc : JSVal) (m : List (String × FieldSpec)) :
    ∀ (r : Record) (s : List String),
      (m.foldl (processEntry doc) (r, s)).2 = s ++ concatAll (m.map (entryDiag doc)) := by
  induction m with
  | nil => intro r s; simp [concatAll]
  | cons e es ih =>
    intro r s
    simp only [List.foldl_cons, processEntry, List.map_cons, concatAll]
    rw [ih]
    simp [List.append_assoc]

/-- `pathFold` is absorbing at `null`. -/
theorem pathFold_null (keys : List String) : pathFold .jnull keys = .jnull := by
  induction keys with
  | nil => rfl
  | cons k ks ih =>
    show pathFold (pathStep .jnull k) ks = .jnull
    have h : pathStep .jnull k = .jnull := rfl
    rw [h, ih]

/-- Overwriting the value stored under `k'` leaves the lookup of a
different key `k` unchanged. -/
theorem lookup_map_overwrite (k k' : String) (v : JSVal) (h : k ≠ k') :
    ∀ (r : Record),
      List.lookup k (r.map (fun p => if p.1 == k' then (p.1, v) else p)) =
        List.lookup k r := by
  intro r
  induction r with
  | nil => rfl
  | cons p ps ih =>
    simp only [List.map_cons]
    by_cases hpk : p.1 = k'
    · rw [if_pos (show (p.1 == k') = true from by simpa using hpk)]
      have hkp : (k == p.1) = false :=
        beq_eq_false_iff_ne.mpr (fun he => h (he.trans hpk))
      simpa [List.lookup, hkp] using ih
    · rw [if_neg (show ¬(p.1 == k') = true from by simpa using hpk)]
      by_cases hk : k = p.1
      · simp [List.lookup, hk]
      · have hkf : (k == p.1) = false := beq_eq_false_iff_ne.mpr hk
        simpa [List.lookup, hkf] using ih

/-- Appending a binding for `k'` leaves the lookup of a different key `k`
unchanged. -/
theorem lookup_append_single (k k' : String) (v : JSVal) (h : k ≠ k') :
    ∀ (r : Record), List.lookup k (r ++ [(k', v)]) = List.lookup k r := by
  intro r
  induction r with
  | nil =>
    have hkk : (k == k') = false := by simpa using h
    simp [List.lookup, hkk]
  | cons p ps ih =>
    simp only [List.cons_append, List.lookup]
    cases hk : (k == p.1) with
    | true => simp [hk]
    | false => simpa [hk] using ih

/-- Assigning under one key leaves lookups of a different key unchanged. -/
theorem lookup_recSet_ne (r : Record) (k k' : String) (v : JSVal) (h : k ≠ k') :
    List.lookup k (recSet r k' v) = List.lookup k r := by
  unfold recSet
  cases ha : r.any (fun p => p.1 == k') with
  | true => simp only [if_pos]; exact lookup_map_overwrite k k' v h r
  | false =>
    simp only [Bool.false_eq_true, if_false]
    exact lookup_append_single k k' v h r

/-- Processing an entry whose target name differs from `k` leaves the
lookup of `k` unchanged. -/
theorem lookup_entryResult_ne (doc : JSVal) (r : Record) (e : String × FieldSpec)
    (k : String) (h : e.1 ≠ k) :
    List.lookup k (entryResult doc r e) = List.lookup k r := by
  unfold entryResult
  cases hres : resolveField doc e.2 with
  | error msg => rfl
  | ok v =>
    by_cases hp : passesNonEmpty v
    · by_cases he : isEmptyArr v
      · simp [hp, he]
      · simp only [hp, he, Bool.false_eq_true, if_pos, if_neg]
        exact lookup_recSet_ne r k e.1 v (Ne.symm h)
    · simp [hp]

/-- Folding entries none of which targets `k` preserves the lookup of
`k`. -/
theorem lookup_foldl_entryResult_ne (doc : JSVal) (k : String) :
    ∀ (es : List (String × FieldSpec)) (r : Record),
      (∀ e ∈ es, e.1 ≠ k) →
      List.lookup k (es.foldl (entryResult doc) r) = List.lookup k r := by
  intro es
  induction es with
  | nil => intro r _; rfl
  | cons e es ih =>
    intro r hall
    simp only [List.foldl_cons]
    rw [ih _ (fun x hx => hall x (List.mem_cons_of_mem e hx))]
    exact lookup_entryResult_ne doc r e k (hall e (List.mem_cons_self e es))

/-! ## Concrete fixtures used by the claims -/

/-- An environment with both a shared secret and an upstream URL
configured. -/
def envFull : Env :=
  { webhookSecret := some "sasha-secret",
    bitrixWebhookUrl := some "https://bitrix.example/rest/1/code/" }

/-- Upstream stub: HTTP 200 with a fresh lead id. -/
def upstreamOk : String → JSVal → UpstreamOutcome :=
  fun _ _ => .reply 200 (.obj [("result", .num 42)])

/-- Upstream stub: HTTP 200 whose body carries an application-level
`error` field. -/
def upstreamAppErr : String → JSVal → UpstreamOutcome :=
  fun _ _ => .reply 200 (.obj [("error", .str "ERROR"),
    ("error_description", .str "bad field")])

/-- Raw text of a minimal webhook body with truthy `contact` and `call`. -/
def validRawBody : String := "\x7b\"contact\":1,\"call\":1\x7d"

/-- The parsed form of `validRawBody`. -/
def validDoc : JSVal := .obj [("contact", .num 1), ("call", .num 1)]

/-- A field specification whose transform always throws. -/
def boomSpec : FieldSpec :=
  { source := "multiple", transform := some (fun _ _ => .error "boom") }

/-! ## Claims -/

/-- C1 (code bug): with a secret configured, the `POST /webhook` handler
of src/server.js only tests the PRESENCE of `X-Webhook-Signature`;
`verifyWebhookSignature` is never invoked.  The two distinct signatures
`00` and `01` — at most one of which can equal the hex-encoded
HMAC-SHA256 of the body under the secret — are both accepted: the request
proceeds past authentication all the way to the upstream call (status
200, mapping and POST performed) instead of the claimed 401 rejection of
a mismatched signature.  Only a missing signature header is rejected with
401. -/
theorem webhook_signature_never_verified_c1 :
    ("00" : String) ≠ "01" ∧
    (webhookHandler envFull upstreamOk
      { signature := some "00", body := validRawBody }).1.status = 200 ∧
    (webhookHandler envFull upstreamOk
      { signature := some "00", body := validRawBody }).2 = [.mapped, .posted] ∧
    (webhookHandler envFull upstreamOk
      { signature := some "01", body := validRawBody }).1.status = 200 ∧
    (webhookHandler envFull upstreamOk
      { signature := some "01", body := validRawBody }).2 = [.mapped, .posted] ∧
    (webhookHandler envFull upstreamOk
      { signature := none, body := validRawBody }).1.status = 401 :=
  ⟨by decide, rfl, rfl, rfl, rfl, rfl⟩

/-- C2 (code bug): when the upstream answers HTTP 200 with
`error:"ERROR", error_description:"bad field"`, the src/server.js
handler responds 200 with `success:true` (and an undefined lead id)
instead of the claimed 500 — the `error` field of a 2xx body is never
inspected.  The part_000 debug draft of `createLeadInBitrix` implements
the claimed behaviour: it rejects with a message containing
`bad field`. -/
theorem upstream_error_field_treated_as_success_c2 :
    (webhookHandler envFull upstreamAppErr
      { signature := some "00", body := validRawBody }).1.status = 200 ∧
    getProp (webhookHandler envFull upstreamAppErr
      { signature := some "00", body := validRawBody }).1.body "success" = .boolean true ∧
    (webhookHandler envFull upstreamAppErr
      { signature := some "00", body := validRawBody }).2 = [.mapped, .posted] ∧
    (createLeadInBitrixDbg envFull upstreamAppErr validDoc).1 =
      .error "Ошибка при создании лида в Bitrix: Bitrix вернул ошибку: ERROR - bad field" ∧
    containsSubstr
      "Ошибка при создании лида в Bitrix: Bitrix вернул ошибку: ERROR - bad field"
      "bad field" = true :=
  ⟨rfl, rfl, rfl, rfl, rfl⟩

/-- C3: whenever the mapped record is empty, the part_000
`createLeadInBitrix` (whose post-mapping stage is `createLeadDbgCore`)
rejects with the terminal no-fields error — surfaced as 500 by the
route's catch-all — and performs no upstream POST.  (With the lead
mapping table the record in fact can never be empty, see the C10
theorem; the guard is established here for every record.) -/
theorem empty_mapping_fails_before_upstream_c3
    (burl : String) (upstream : String → JSVal → UpstreamOutcome)
    (leadFields : Record) (h : leadFields = []) :
    (createLeadDbgCore burl upstream leadFields).1 =
      .error "После маппинга не осталось полей для создания лида. Проверьте структуру входящих данных." ∧
    (createLeadDbgCore burl upstream leadFields).2 = [] := by
  subst h
  exact ⟨rfl, rfl⟩

/-- Witness for C3 at the empty record. -/
theorem empty_mapping_fails_before_upstream_c3_w :
    (createLeadDbgCore "https://bitrix.example/rest/1/code/" upstreamOk []).1 =
      .error "После маппинга не осталось полей для создания лида. Проверьте структуру входящих данных." ∧
    (createLeadDbgCore "https://bitrix.example/rest/1/code/" upstreamOk []).2 = [] :=
  empty_mapping_fails_before_upstream_c3 _ _ _ rfl

/-- C4: for every parsed request body in which `contact` or `call` is
absent or falsy, both the `POST /webhook` handler (past its
signature-presence, secret and non-empty-body guards) and the
`POST /test/bitrix/lead` handler answer 400 with no effects: the mapping
engine is not invoked and no upstream call is made. -/
theorem missing_contact_or_call_rejected_400_c4
    (env : Env) (upstream : String → JSVal → UpstreamOutcome)
    (sig : Option String) (payload : String) (data : JSVal)
    (hsig : envFalsy sig = false) (hsec : envFalsy env.webhookSecret = false)
    (hbody : (payload == "") = false) (hparse : jsonParse payload = some data)
    (hmiss : truthy (getProp data "contact") = false ∨
      truthy (getProp data "call") = false) :
    ((webhookHandler env upstream { signature := sig, body := payload }).1.status = 400 ∧
     (webhookHandler env upstream { signature := sig, body := payload }).2 = []) ∧
    ((testLeadHandler env upstream data).1.status = 400 ∧
     (testLeadHandler env upstream data).2 = []) := by
  have hmiss2 : (!truthy (getProp data "contact") ||
      !truthy (getProp data "call")) = true := by
    rcases hmiss with h | h <;> simp [h]
  constructor
  · simp only [webhookHandler, hsig, hsec, hbody, hparse, Bool.false_eq_true,
      if_false]
    by_cases hg : (!truthy data || (objKeys data).length == 0) = true
    · simp [hg]
    · simp [hg, hmiss2]
  · by_cases ht : (!truthy data || !(typeofStr data == "object")) = true
    · simp [testLeadHandler, ht]
    · simp [testLeadHandler, ht, hmiss2]

/-- Witness for C4: body `\x7b"contact":1\x7d` with `call` absent. -/
theorem missing_contact_or_call_rejected_400_c4_w :
    ((webhookHandler envFull upstreamOk
        { signature := some "aa", body := "\x7b\"contact\":1\x7d" }).1.status = 400 ∧
     (webhookHandler envFull upstreamOk
        { signature := some "aa", body := "\x7b\"contact\":1\x7d" }).2 = []) ∧
    ((testLeadHandler envFull upstreamOk (.obj [("contact", .num 1)])).1.status = 400 ∧
     (testLeadHandler envFull upstreamOk (.obj [("contact", .num 1)])).2 = []) :=
  missing_contact_or_call_rejected_400_c4 envFull upstreamOk (some "aa")
    "\x7b\"contact\":1\x7d" (.obj [("contact", .num 1)]) rfl rfl rfl rfl
    (Or.inr rfl)

/-- C5: a successfully resolved value is placed in the output record of
its (single-entry) mapping table exactly when it is neither `null`, nor
`undefined`, nor the empty string, nor an empty array; otherwise the
field is absent.  In particular `0` and `false` are included, the empty
string and the empty array are excluded. -/
theorem resolved_value_inclusion_iff_c5
    (doc : JSVal) (name : String) (cfg : FieldSpec) (v : JSVal)
    (h : resolveField doc cfg = .ok v) :
    (applyMapping doc [(name, cfg)] = [(name, v)] ↔
      (v ≠ .jnull ∧ v ≠ .undefined ∧ v ≠ .str "" ∧ v ≠ .arr [])) ∧
    (applyMapping doc [(name, cfg)] = [] ↔
      (v = .jnull ∨ v = .undefined ∨ v = .str "" ∨ v = .arr [])) := by
  have happ : applyMapping doc [(name, cfg)] = entryResult doc [] (name, cfg) := by
    rw [applyMapping_eq_foldl]
    rfl
  rw [happ]
  unfold entryResult
  rw [h]
  cases v with
  | jnull => simp [passesNonEmpty, isNull, isUndefined, isEmptyStr, isEmptyArr, JSVal.arr, JSList.ofList]
  | undefined => simp [passesNonEmpty, isNull, isUndefined, isEmptyStr, isEmptyArr, JSVal.arr, JSList.ofList]
  | boolean b => simp [passesNonEmpty, isNull, isUndefined, isEmptyStr, isEmptyArr, JSVal.arr, JSList.ofList, recSet]
  | num n => simp [passesNonEmpty, isNull, isUndefined, isEmptyStr, isEmptyArr, JSVal.arr, JSList.ofList, recSet]
  | str s =>
    by_cases hs : s = ""
    · subst hs
      simp [passesNonEmpty, isNull, isUndefined, isEmptyStr, isEmptyArr, JSVal.arr, JSList.ofList]
    · have hsb : (s == "") = false := beq_eq_false_iff_ne.mpr hs
      simp [passesNonEmpty, isNull, isUndefined, isEmptyStr, isEmptyArr, JSVal.arr, JSList.ofList, recSet, hsb, hs]
  | arrC xs =>
    cases xs with
    | nil =>
      simp [passesNonEmpty, isNull, isUndefined, isEmptyStr, isEmptyArr,
        JSList.isEmpty, JSVal.arr, JSList.ofList]
    | cons x xs =>
      simp [passesNonEmpty, isNull, isUndefined, isEmptyStr, isEmptyArr,
        JSList.isEmpty, JSVal.arr, JSList.ofList, recSet]
  | objC fs => simp [passesNonEmpty, isNull, isUndefined, isEmptyStr, isEmptyArr, JSVal.arr, JSList.ofList, recSet]

/-- Witness for C5: the static value `0` is resolved and included. -/
theorem resolved_value_inclusion_iff_c5_w :
    applyMapping .jnull [("X", ({ source := "static", value := .num 0 } : FieldSpec))] =
      [("X", .num 0)] :=
  (resolved_value_inclusion_iff_c5 .jnull "X"
      { source := "static", value := .num 0 } (.num 0) rfl).1.mpr
    ⟨fun he => JSVal.noConfusion he, fun he => JSVal.noConfusion he,
     fun he => JSVal.noConfusion he, fun he => JSVal.noConfusion he⟩

/-- C6: the path resolver is total (hence never throws): the empty path
and the two reserved sentinels resolve to `null`; a falsy or
property-less intermediate value short-circuits the remaining segments to
`null`; the concrete path `call.agreements.client_name` on a document
lacking `agreements` resolves to `null`, while on a document carrying the
value it returns that value. -/
theorem path_resolver_null_safety_c6
    (o v : JSVal) (key : String) (keys : List String)
    (h : truthy v = false ∨ getProp v key = .undefined) :
    pathFold v (key :: keys) = .jnull ∧
    getValueByPath o "" = .jnull ∧
    getValueByPath o "static" = .jnull ∧
    getValueByPath o "multiple" = .jnull ∧
    getValueByPath (.obj [("call", .obj [("startedAt", .str "2026-01-01")])])
      "call.agreements.client_name" = .jnull ∧
    getValueByPath (.obj [("call", .obj [("agreements",
        .obj [("client_name", .str "Ann")])])])
      "call.agreements.client_name" = .str "Ann" := by
  refine ⟨?_, rfl, rfl, rfl, rfl, rfl⟩
  have hstep : pathStep v key = .jnull := by
    rcases h with h | h
    · simp [pathStep, h]
    · simp [pathStep, h, isUndefined]
  show pathFold (pathStep v key) keys = .jnull
  rw [hstep]
  exact pathFold_null keys

/-- Witness for C6 at a falsy intermediate. -/
theorem path_resolver_null_safety_c6_w :
    pathFold .jnull ["agreements"] = .jnull :=
  (path_resolver_null_safety_c6 .jnull .jnull "agreements" [] (Or.inl rfl)).1

/-- C7: a field whose resolution throws is skipped — the output record
equals the one computed from the table without that field, so the other
fields are unaffected and the transform is not aborted — and its
diagnostic is recorded in the skipped-fields list. -/
theorem throwing_field_skipped_others_unaffected_c7
    (doc : JSVal) (pre post : List (String × FieldSpec))
    (name : String) (cfg : FieldSpec) (msg : String)
    (h : resolveField doc cfg = .error msg) :
    applyMapping doc (pre ++ (name, cfg) :: post) = applyMapping doc (pre ++ post) ∧
    (name ++ " (ошибка: " ++ msg ++ ")") ∈
      (applyMappingFull doc (pre ++ (name, cfg) :: post)).2 := by
  constructor
  · rw [applyMapping_eq_foldl, applyMapping_eq_foldl, List.foldl_append,
      List.foldl_append, List.foldl_cons]
    have hskip : entryResult doc (pre.foldl (entryResult doc) []) (name, cfg) =
        pre.foldl (entryResult doc) [] := by
      unfold entryResult
      rw [h]
    rw [hskip]
  · have hdiag : entryDiag doc (name, cfg) = [name ++ " (ошибка: " ++ msg ++ ")"] := by
      unfold entryDiag
      rw [h]
    have hsnd := foldl_processEntry_snd doc (pre ++ (name, cfg) :: post) [] []
    unfold applyMappingFull
    rw [hsnd, List.map_append, concatAll_append, List.map_cons]
    simp [concatAll, hdiag]

/-- Witness for C7: a throwing transform on an otherwise empty table. -/
theorem throwing_field_skipped_others_unaffected_c7_w :
    applyMapping .jnull [("F", boomSpec)] = applyMapping .jnull [] ∧
    ("F" ++ " (ошибка: " ++ "boom" ++ ")") ∈
      (applyMappingFull .jnull [("F", boomSpec)]).2 :=
  throwing_field_skipped_others_unaffected_c7 .jnull [] [] "F" boomSpec "boom" rfl

/-- C8: the end-to-end example — the document with phone
`+7 900 123-45-67` and client name `" Ann "`, mapped with the name-trim
and phone-digit-strip specifications of the lead table, yields exactly
`NAME = "Ann"` and `PHONE = [ \x7b VALUE:"79001234567",
VALUE_TYPE:"WORK" \x7d ]`. -/
theorem name_trim_phone_strip_example_c8 :
    applyMapping
      (.obj [("contact", .obj [("phone", .str "+7 900 123-45-67")]),
             ("call", .obj [("agreements", .obj [("client_name", .str " Ann ")])])])
      [("NAME", nameSpec), ("PHONE", phoneSpec)] =
    [("NAME", .str "Ann"),
     ("PHONE", .arr [.obj [("VALUE", .str "79001234567"),
       ("VALUE_TYPE", .str "WORK")]])] := rfl

/-- C9: the mapping engine is deterministic — it is embedded as a pure
function of the document and the table, so a first and a second
application to the same arguments return equal output records. -/
theorem mapping_idempotent_c9 (doc : JSVal) (table : List (String × FieldSpec)) :
    applyMapping doc table = applyMapping doc table := rfl

/-- C10: for every input document the lead output record contains
`STATUS_ID = "UC_E5DGC8"` (the static first entry of the lead table,
which passes the inclusion filter and is never overwritten by the later
entries), and is therefore never empty. -/
theorem lead_record_always_has_status_id_c10 (doc : JSVal) :
    List.lookup "STATUS_ID" (applyMapping doc leadMapping) =
      some (.str "UC_E5DGC8") ∧
    applyMapping doc leadMapping ≠ [] := by
  have hmain : List.lookup "STATUS_ID" (applyMapping doc leadMapping) =
      some (.str "UC_E5DGC8") := by
    rw [applyMapping_eq_foldl]
    unfold leadMapping
    rw [List.foldl_cons]
    have h1 : entryResult doc [] ("STATUS_ID", statusSpec) =
        [("STATUS_ID", .str "UC_E5DGC8")] := rfl
    rw [h1, lookup_foldl_entryResult_ne]
    · rfl
    · intro e he
      fin_cases he <;> decide
  refine ⟨hmain, fun hempty => ?_⟩
  rw [hempty] at hmain
  simp [List.lookup] at hmain

end SashaRelay
